import Mathlib

/-!
Verification development for the finance_app repository.

The source is a small Streamlit dashboard (src/utils.py and src/pages/*)
backed by a Google spreadsheet.  We give a shallow embedding of the pure
logic of `src/utils.py` and the page-level computations:

* numbers: Python floats are modelled as exact rationals (`Rat`); the code
  never rounds in storage, so rational arithmetic reflects the stored
  expressions; network payload values arrive already parsed as rationals.
* dates: Python `datetime.date` is modelled as a year/month/day record.
* network: HTTP responses of the two FX providers are oracle parameters
  (status code, body text, optional parsed `rates["BDT"]` value).
* spreadsheet + `st.cache_data`: explicit state records, passed through.
* exceptions: `Except String` for code that raises; the raised message is
  modelled faithfully where the claims mention it.
-/

namespace FinanceApp

/-- Python `datetime.date`: a calendar date. -/
structure PyDate where
  year : Nat
  month : Nat
  day : Nat
deriving DecidableEq, Repr

/-- Left-pad the decimal representation of `n` with zeros to width `w`. -/
def padNat (w : Nat) (n : Nat) : String :=
  let s := toString n
  String.mk (List.replicate (w - s.length) '0') ++ s

/-- `date.isoformat()`: `YYYY-MM-DD`. -/
def PyDate.isoformat (d : PyDate) : String :=
  padNat 4 d.year ++ "-" ++ padNat 2 d.month ++ "-" ++ padNat 2 d.day

/-- Oracle for one HTTP response from an FX provider: the status code, the
    response text (used in error messages), a printable rendering of the
    decoded JSON (used in error messages), and `rates["BDT"]` after
    `safe_float(·, 0.0)` — `none` models a missing/non-dict `rates` or a
    missing `"BDT"` key. -/
structure ProviderResp where
  status : Nat
  text : String
  dataRepr : String
  bdt : Option Rat

/-- `_fetch_eur_to_bdt_rate_frankfurter` (src/utils.py:134-154), with the
    HTTP response abstracted as an oracle.  Raising is `Except.error` with
    the raised message. -/
def fetchEurToBdtRateFrankfurter (resp : ProviderResp) : Except String Rat :=
  if resp.status ≠ 200 then
    .error ("Frankfurter HTTP " ++ toString resp.status ++ ": " ++ resp.text)
  else
    match resp.bdt with
    | none => .error ("Frankfurter missing BDT: " ++ resp.dataRepr)
    | some rate =>
      if rate ≤ 0 then .error ("Frankfurter invalid rate: " ++ resp.dataRepr)
      else .ok rate

/-- `_fetch_eur_to_bdt_rate_erapi` (src/utils.py:157-179): fallback valid
    only when the requested date equals `date.today()` (the `today`
    parameter). -/
def fetchEurToBdtRateErapi (d today : PyDate) (resp : ProviderResp) :
    Except String Rat :=
  if d ≠ today then
    .error "open.er-api.com fallback supports only today's rate"
  else if resp.status ≠ 200 then
    .error ("ER-API HTTP " ++ toString resp.status ++ ": " ++ resp.text)
  else
    match resp.bdt with
    | none => .error ("ER-API missing BDT: " ++ resp.dataRepr)
    | some rate =>
      if rate ≤ 0 then .error ("ER-API invalid rate: " ++ resp.dataRepr)
      else .ok rate

/-- `_fetch_eur_to_bdt_rate` (src/utils.py:182-194): try Frankfurter, then
    ER-API, collecting `errors`; if both fail raise the combined message. -/
def fetchEurToBdtRate (d today : PyDate) (frResp erResp : ProviderResp) :
    Except String Rat :=
  match fetchEurToBdtRateFrankfurter frResp with
  | .ok r => .ok r
  | .error e1 =>
    match fetchEurToBdtRateErapi d today erResp with
    | .ok r => .ok r
    | .error e2 =>
      .error ("All FX providers failed.\n" ++
        ("Frankfurter failed: " ++ e1) ++ "\n" ++ ("ER-API failed: " ++ e2))

/-- A Frankfurter success is strictly positive (`rate <= 0` raises). -/
theorem fetchEurToBdtRateFrankfurter_pos {resp : ProviderResp} {r : Rat}
    (h : fetchEurToBdtRateFrankfurter resp = .ok r) : 0 < r := by
  unfold fetchEurToBdtRateFrankfurter at h
  repeat' split at h
  all_goals simp_all

/-- An ER-API success is strictly positive (`rate <= 0` raises). -/
theorem fetchEurToBdtRateErapi_pos {d today : PyDate} {resp : ProviderResp}
    {r : Rat} (h : fetchEurToBdtRateErapi d today resp = .ok r) : 0 < r := by
  unfold fetchEurToBdtRateErapi at h
  repeat' split at h
  all_goals simp_all

/-- A fetched rate is strictly positive: both providers reject `rate <= 0`. -/
theorem fetchEurToBdtRate_pos {d today : PyDate} {frResp erResp : ProviderResp}
    {r : Rat} (h : fetchEurToBdtRate d today frResp erResp = .ok r) : 0 < r := by
  unfold fetchEurToBdtRate at h
  rcases hfr : fetchEurToBdtRateFrankfurter frResp with e1 | r1
  · rw [hfr] at h
    rcases her : fetchEurToBdtRateErapi d today erResp with e2 | r2
    · rw [her] at h
      simp at h
    · rw [her] at h
      simp only [Except.ok.injEq] at h
      subst h
      exact fetchEurToBdtRateErapi_pos her
  · rw [hfr] at h
    simp only [Except.ok.injEq] at h
    subst h
    exact fetchEurToBdtRateFrankfurter_pos hfr

/-- The message ER-API raises when the requested date is not today. -/
def onlyTodayMsg : String := "open.er-api.com fallback supports only today's rate"

/-- The combined error message of `_fetch_eur_to_bdt_rate`. -/
def allProvidersFailedMsg (e1 e2 : String) : String :=
  "All FX providers failed.\n" ++
    ("Frankfurter failed: " ++ e1) ++ "\n" ++ ("ER-API failed: " ++ e2)

/-
## Rate store (`Rates` sheet) and its read cache

`_get_rate_from_sheet_cached` (src/utils.py:200-218) looks a date string up
in column A of the `Rates` sheet and parses column B with `safe_float`;
non-positive parses yield `None`.  The `@st.cache_data(ttl=300)` decorator
memoises the result per date string; `invalidate_all_data_caches` clears the
memo.  We model the sheet's data rows as `(date string, parsed rate)` pairs
(the header row `["date", "eur_bdt_rate"]` cannot match an ISO date string
and is omitted) and the memo as an association list.
-/

/-- State of the rate subsystem: data rows of the `Rates` sheet (column A
    string, column B value after `safe_float`) and the `st.cache_data` memo
    of `_get_rate_from_sheet_cached`. -/
structure RateState where
  rows : List (String × Rat)
  cache : List (String × Option Rat)
deriving Repr

/-- The uncached body of `_get_rate_from_sheet_cached`: `find(d_str,
    in_column=1)` returns the first matching row; the rate is returned only
    when strictly positive. -/
def sheetFindRate (rows : List (String × Rat)) (dStr : String) : Option Rat :=
  match rows.find? (fun p => p.1 = dStr) with
  | none => none
  | some p => if 0 < p.2 then some p.2 else none

/-- `_get_rate_from_sheet_cached` with the `st.cache_data` memo explicit:
    a memoised result is returned as is; otherwise the sheet is read and
    the result memoised. -/
def getRateFromSheetCached (s : RateState) (dStr : String) :
    Option Rat × RateState :=
  match s.cache.find? (fun p => p.1 = dStr) with
  | some p => (p.2, s)
  | none =>
    let res := sheetFindRate s.rows dStr
    (res, { s with cache := (dStr, res) :: s.cache })

/-- `get_rate_for_date` (src/utils.py:221-238): look the date up in the
    Rates sheet; on a miss fetch from the provider chain, append the new
    row, and clear all `st.cache_data` caches
    (`invalidate_all_data_caches`). -/
def get_rate_for_date (s : RateState) (d today : PyDate)
    (frResp erResp : ProviderResp) : Except String (Rat × RateState) :=
  match getRateFromSheetCached s d.isoformat with
  | (some existing, s1) => .ok (existing, s1)
  | (none, s1) =>
    match fetchEurToBdtRate d today frResp erResp with
    | .error e => .error e
    | .ok rate =>
      .ok (rate, { rows := s1.rows ++ [(d.isoformat, rate)], cache := [] })

/-- Rows invariant of the Rates sheet: every stored rate value is strictly
    positive (maintained by the app: only fetched rates are appended). -/
def RowsPos (s : RateState) : Prop := ∀ p ∈ s.rows, 0 < p.2

/-- Cache coherence: every memoised entry equals the current sheet lookup
    (maintained in a single process: every write clears the memo). -/
def CacheCoherent (s : RateState) : Prop :=
  ∀ p ∈ s.cache, p.2 = sheetFindRate s.rows p.1

/-- Key uniqueness: at most one row per date string. -/
def NodupKeys (s : RateState) : Prop := (s.rows.map Prod.fst).Nodup

/-- `sheetFindRate` only returns strictly positive rates. -/
theorem sheetFindRate_pos {rows : List (String × Rat)} {dStr : String}
    {r : Rat} (h : sheetFindRate rows dStr = some r) : 0 < r := by
  unfold sheetFindRate at h
  repeat' split at h
  all_goals simp_all

/-- When all stored rates are positive, a `sheetFindRate` miss means no row
    at all carries that date string. -/
theorem sheetFindRate_none {rows : List (String × Rat)} {dStr : String}
    (hpos : ∀ p ∈ rows, 0 < p.2) (h : sheetFindRate rows dStr = none) :
    rows.find? (fun p => p.1 = dStr) = none := by
  unfold sheetFindRate at h
  rcases hf : rows.find? (fun p => p.1 = dStr) with _ | p
  · exact hf
  · rw [hf] at h
    have hp := hpos p (List.mem_of_find?_eq_some hf)
    simp [hp] at h

/-- A key absent from a row list is found exactly at a freshly appended
    row. -/
theorem find?_append_self {rows : List (String × Rat)} {dStr : String}
    {r : Rat} (h : rows.find? (fun p => p.1 = dStr) = none) :
    (rows ++ [(dStr, r)]).find? (fun p => p.1 = dStr) = some (dStr, r) := by
  rw [List.find?_append, h]
  simp

/-- Under cache coherence, the memoised lookup returns exactly the sheet
    lookup, leaves the rows unchanged, and preserves coherence. -/
theorem getRateFromSheetCached_of_coherent (s : RateState) (k : String)
    (hco : CacheCoherent s) :
    ∃ c, getRateFromSheetCached s k =
        (sheetFindRate s.rows k, { rows := s.rows, cache := c }) ∧
      CacheCoherent { rows := s.rows, cache := c } := by
  unfold getRateFromSheetCached
  rcases hc : s.cache.find? (fun p => p.1 = k) with _ | pr
  · refine ⟨(k, sheetFindRate s.rows k) :: s.cache, ?_, ?_⟩
    · rw [hc]
    · intro q hq
      rcases List.mem_cons.mp hq with hq | hq
      · subst hq; rfl
      · exact hco q hq
  · have h1 := List.find?_some hc
    have hpk : pr.1 = k := by simpa using h1
    have hval := hco pr (List.mem_of_find?_eq_some hc)
    refine ⟨s.cache, ?_, ?_⟩
    · rw [hc]
      dsimp only
      rw [hval, hpk]
    · exact hco

/-- Keys of rows stay duplicate-free when a fresh key is appended. -/
theorem nodupKeys_append {rows : List (String × Rat)} {k : String} {r : Rat}
    (hnd : (rows.map Prod.fst).Nodup)
    (hfind : rows.find? (fun p => p.1 = k) = none) :
    ((rows ++ [(k, r)]).map Prod.fst).Nodup := by
  rw [List.map_append]
  refine List.Nodup.append hnd (by simp) ?_
  intro a ha hb
  simp only [List.map_cons, List.map_nil, List.mem_singleton] at hb
  subst hb
  obtain ⟨q, hq, hqk⟩ := List.mem_map.mp ha
  have := List.find?_eq_none.mp hfind q hq
  simp [hqk] at this

/-- C1: if rate resolution (`get_rate_for_date`) succeeds once for a date
    `d`, any second call for the same date returns the identical rate —
    regardless of what the providers would answer the second time — because
    the rate is looked up in the Rates sheet first and a stored rate is
    never overwritten; moreover at most one rate row exists per calendar
    date (key uniqueness is preserved).  Hypotheses are the app-maintained
    invariants: stored rates positive, read cache coherent, keys unique. -/
theorem get_rate_for_date_locked
    (s : RateState) (d today today2 : PyDate)
    (frResp erResp frResp2 erResp2 : ProviderResp) (r : Rat) (s' : RateState)
    (hpos : RowsPos s) (hco : CacheCoherent s) (hnd : NodupKeys s)
    (h : get_rate_for_date s d today frResp erResp = .ok (r, s')) :
    (∃ s'', get_rate_for_date s' d today2 frResp2 erResp2 = .ok (r, s'')) ∧
      NodupKeys s' := by
  obtain ⟨c1, hlook, hco1⟩ := getRateFromSheetCached_of_coherent s d.isoformat hco
  unfold get_rate_for_date at h
  rw [hlook] at h
  rcases hfind : sheetFindRate s.rows d.isoformat with _ | r0
  · -- sheet miss: fetch, append, clear caches
    rw [hfind] at h
    dsimp only at h
    rcases hfetch : fetchEurToBdtRate d today frResp erResp with e | rate
    · rw [hfetch] at h
      exact absurd h (by simp)
    · rw [hfetch] at h
      simp only [Except.ok.injEq, Prod.mk.injEq] at h
      obtain ⟨hr, hs'⟩ := h
      subst hr
      subst hs'
      have hposr : 0 < rate := fetchEurToBdtRate_pos hfetch
      have hfnone := sheetFindRate_none hpos hfind
      have hsheet2 : sheetFindRate (s.rows ++ [(d.isoformat, rate)]) d.isoformat
          = some rate := by
        unfold sheetFindRate
        rw [find?_append_self hfnone]
        simp [hposr]
      constructor
      · refine ⟨⟨s.rows ++ [(d.isoformat, rate)],
          [(d.isoformat, some rate)]⟩, ?_⟩
        unfold get_rate_for_date getRateFromSheetCached
        dsimp only
        rw [hsheet2]
        rfl
      · exact nodupKeys_append hnd hfnone
  · -- sheet hit: the stored rate is returned, state rows unchanged
    rw [hfind] at h
    dsimp only at h
    simp only [Except.ok.injEq, Prod.mk.injEq] at h
    obtain ⟨hr, hs'⟩ := h
    subst hr
    subst hs'
    obtain ⟨c2, hlook2, _⟩ :=
      getRateFromSheetCached_of_coherent ⟨s.rows, c1⟩ d.isoformat hco1
    constructor
    · refine ⟨⟨s.rows, c2⟩, ?_⟩
      unfold get_rate_for_date
      rw [hlook2]
      dsimp only
      rw [hfind]
    · exact hnd

/-- Witness for C1: starting from an empty Rates sheet, a first resolution
    of 2026-02-07 fetches 120 from Frankfurter and stores it; the second
    call returns 120 even though both providers would now answer 119. -/
theorem get_rate_for_date_locked_witness :
    (∃ s'', get_rate_for_date ⟨[("2026-02-07", 120)], []⟩ ⟨2026, 2, 7⟩
        ⟨2026, 2, 7⟩ ⟨200, "", "", some 119⟩ ⟨200, "", "", some 119⟩ =
        .ok (120, s'')) ∧
      NodupKeys ⟨[("2026-02-07", 120)], []⟩ :=
  get_rate_for_date_locked ⟨[], []⟩ ⟨2026, 2, 7⟩ ⟨2026, 2, 7⟩ ⟨2026, 2, 7⟩
    ⟨200, "", "", some 120⟩ ⟨200, "", "", some 119⟩ ⟨200, "", "", some 119⟩
    ⟨200, "", "", some 119⟩ 120 ⟨[("2026-02-07", 120)], []⟩
    (by simp [RowsPos]) (by simp [CacheCoherent]) (by simp [NodupKeys])
    (by rfl)

/-- C2: for a requested date other than today, when the primary provider
    fails the secondary fails immediately with the reason that it only
    supports today's rate — whatever its HTTP response would have been —
    and the overall fetch raises the single combined error listing both
    providers' failure reasons. -/
theorem fetch_notToday_combined_error
    (d today : PyDate) (frResp erResp : ProviderResp) (e1 : String)
    (hne : d ≠ today)
    (hfr : fetchEurToBdtRateFrankfurter frResp = .error e1) :
    fetchEurToBdtRateErapi d today erResp = .error onlyTodayMsg ∧
    fetchEurToBdtRate d today frResp erResp =
      .error (allProvidersFailedMsg e1 onlyTodayMsg) := by
  have her : fetchEurToBdtRateErapi d today erResp = .error onlyTodayMsg := by
    unfold fetchEurToBdtRateErapi onlyTodayMsg
    simp [hne]
  refine ⟨her, ?_⟩
  unfold fetchEurToBdtRate
  rw [hfr]
  dsimp only
  rw [her]
  rfl

/-- Witness for C2: primary returns HTTP 500 for 2026-02-07 while today is
    2026-02-08; the fetch fails with the combined two-reason error. -/
theorem fetch_notToday_combined_error_witness :
    fetchEurToBdtRateErapi ⟨2026, 2, 7⟩ ⟨2026, 2, 8⟩
      ⟨200, "", "", some 119⟩ = .error onlyTodayMsg ∧
    fetchEurToBdtRate ⟨2026, 2, 7⟩ ⟨2026, 2, 8⟩
      ⟨500, "Internal Server Error", "", none⟩ ⟨200, "", "", some 119⟩ =
      .error (allProvidersFailedMsg
        "Frankfurter HTTP 500: Internal Server Error" onlyTodayMsg) :=
  fetch_notToday_combined_error ⟨2026, 2, 7⟩ ⟨2026, 2, 8⟩
    ⟨500, "Internal Server Error", "", none⟩ ⟨200, "", "", some 119⟩
    "Frankfurter HTTP 500: Internal Server Error" (by decide) (by rfl)

/-- Cache positivity: every memoised hit in the rate cache is strictly
    positive (implied by coherence, since the sheet lookup filters
    non-positive rates). -/
def CachePos (s : RateState) : Prop :=
  ∀ p ∈ s.cache, ∀ q : Rat, p.2 = some q → 0 < q

/-- C3: whenever `get_rate_for_date` returns a rate rather than raising,
    the rate is strictly positive: the sheet lookup refuses non-positive
    stored rates and both providers refuse non-positive fetched rates.
    The only hypothesis is the cache invariant (memoised hits positive). -/
theorem get_rate_for_date_pos (s : RateState) (d today : PyDate)
    (frResp erResp : ProviderResp) (r : Rat) (s' : RateState)
    (hcp : CachePos s)
    (h : get_rate_for_date s d today frResp erResp = .ok (r, s')) : 0 < r := by
  unfold get_rate_for_date getRateFromSheetCached at h
  rcases hc : s.cache.find? (fun p => p.1 = d.isoformat) with _ | pr
  · rw [hc] at h
    dsimp only at h
    rcases hfind : sheetFindRate s.rows d.isoformat with _ | r0
    · rw [hfind] at h
      dsimp only at h
      rcases hfetch : fetchEurToBdtRate d today frResp erResp with e | rate
      · rw [hfetch] at h
        exact absurd h (by simp)
      · rw [hfetch] at h
        simp only [Except.ok.injEq, Prod.mk.injEq] at h
        obtain ⟨hr, -⟩ := h
        subst hr
        exact fetchEurToBdtRate_pos hfetch
    · rw [hfind] at h
      dsimp only at h
      simp only [Except.ok.injEq, Prod.mk.injEq] at h
      obtain ⟨hr, -⟩ := h
      subst hr
      exact sheetFindRate_pos hfind
  · rw [hc] at h
    dsimp only at h
    rcases hpr : pr.2 with _ | r0
    · rw [hpr] at h
      dsimp only at h
      rcases hfetch : fetchEurToBdtRate d today frResp erResp with e | rate
      · rw [hfetch] at h
        exact absurd h (by simp)
      · rw [hfetch] at h
        simp only [Except.ok.injEq, Prod.mk.injEq] at h
        obtain ⟨hr, -⟩ := h
        subst hr
        exact fetchEurToBdtRate_pos hfetch
    · rw [hpr] at h
      dsimp only at h
      simp only [Except.ok.injEq, Prod.mk.injEq] at h
      obtain ⟨hr, -⟩ := h
      subst hr
      exact hcp pr (List.mem_of_find?_eq_some hc) r0 hpr

/-- Witness for C3: resolving 2026-03-01 against a sheet whose stored rate
    for that date is 131 yields that positive rate. -/
theorem get_rate_for_date_pos_witness : (0 : Rat) < 131 :=
  get_rate_for_date_pos ⟨[("2026-03-01", 131)], []⟩ ⟨2026, 3, 1⟩
    ⟨2026, 3, 1⟩ ⟨200, "", "", some 119⟩ ⟨200, "", "", some 119⟩ 131
    ⟨[("2026-03-01", 131)], [("2026-03-01", some 131)]⟩
    (by simp [CachePos]) (by rfl)

/-
## Entry page: conversion and saved row (src/pages/1_Entry.py)

The Entry page computes `amount_bdt = float(amount_eur * rate)` (line 159)
and on "Save Entry" appends the row
`[id, date.isoformat(), type, category, remarks, amount_eur, rate,
amount_bdt, created_at]` (lines 183-193).  Floats are modelled as exact
rationals: the code applies no rounding between the product and the
append.
-/

/-- A row of the Transactions sheet, typed as the Entry page writes it. -/
structure TxRow where
  id : String
  date : String
  ty : String
  category : String
  remarks : String
  amount_eur : Rat
  rate_eur_bdt : Rat
  amount_bdt : Rat
  created_at : String
deriving Repr, DecidableEq

/-- The instant conversion: `amount_bdt = float(amount_eur * rate)`
    (src/pages/1_Entry.py:159). -/
def computeAmountBdt (amount_eur rate : Rat) : Rat := amount_eur * rate

/-- The row appended by "Save Entry" (src/pages/1_Entry.py:183-193), with
    the generated id and timestamp as parameters. -/
def saveEntryRow (txId : String) (entryDate : PyDate)
    (entryType category remarks : String) (amount_eur rate : Rat)
    (now : String) : TxRow :=
  { id := txId
    date := entryDate.isoformat
    ty := entryType
    category := category
    remarks := remarks
    amount_eur := amount_eur
    rate_eur_bdt := rate
    amount_bdt := computeAmountBdt amount_eur rate
    created_at := now }

/-- C4: every saved transaction with rate `r > 0` and amount `a ≥ 0` stores
    `amount_bdt = a * r` exactly, with the rate and amount stored verbatim
    alongside. -/
theorem saveEntryRow_amount_bdt (txId : String) (entryDate : PyDate)
    (entryType category remarks : String) (a r : Rat) (now : String)
    (hr : 0 < r) (ha : 0 ≤ a) :
    (saveEntryRow txId entryDate entryType category remarks a r now).amount_bdt
        = a * r ∧
      (saveEntryRow txId entryDate entryType category remarks a r
        now).amount_eur = a ∧
      (saveEntryRow txId entryDate entryType category remarks a r
        now).rate_eur_bdt = r :=
  ⟨rfl, rfl, rfl⟩

/-- Witness for C4: amount 100 EUR at rate 120 stores `amount_bdt = 12000`. -/
theorem saveEntryRow_amount_bdt_witness :
    (saveEntryRow "TX-1" ⟨2026, 2, 7⟩ "Income" "Salary" "" 100 120
      "2026-02-07T12:00:00").amount_bdt = 12000 :=
  ((saveEntryRow_amount_bdt "TX-1" ⟨2026, 2, 7⟩ "Income" "Salary" "" 100 120
    "2026-02-07T12:00:00" (by norm_num) (by norm_num)).1).trans (by norm_num)

/-
## Normalized transactions and the report-page aggregations

The report pages operate row-wise on the normalized dataframe through the
columns `date` (a datetime or NaT), `type`, `category`, `amount_eur` and
`amount_bdt`.  We model a normalized row as a record and the pandas
filter/sum/pivot expressions as list computations over the rows.
-/

/-- A normalized transaction as the report pages see it (`date` is `none`
    for NaT, amounts are exact rationals). -/
structure Tx where
  date : Option PyDate
  ty : String
  category : String
  amount_eur : Rat
  amount_bdt : Rat
deriving Repr, DecidableEq

/-- `to_month_str` (src/pages/2_Monthly_Report.py:18-22 and
    src/pages/3_Insights_and_Categories.py:18-22): `strftime("%Y-%m")`, or
    `""` when the value is NaT (strftime raises, caught). -/
def toMonthStr (x : Option PyDate) : String :=
  match x with
  | none => ""
  | some d => padNat 4 d.year ++ "-" ++ padNat 2 d.month

/-- `.sum()` of the `amount_eur` column of a row selection. -/
def sumAmountsEur (txs : List Tx) : Rat := (txs.map Tx.amount_eur).sum

/-- The monthly summary of src/pages/2_Monthly_Report.py:77-90 (EUR
    columns; the BDT columns are the same expressions over `amount_bdt`).
    `m` is the selection `tx_df[tx_df["month"] == sel_month]`; the
    descending date sort does not affect the sums. -/
structure MonthlySummary where
  income : Rat
  expense : Rat
  debtAdd : Rat
  debtPay : Rat
  net : Rat
  debtNet : Rat
deriving Repr, DecidableEq

/-- `income_eur`, `expense_eur`, `debt_add_eur`, `debt_pay_eur`, `net_eur`,
    `debt_net_eur` of src/pages/2_Monthly_Report.py:77-90. -/
def monthlySummary (txs : List Tx) (selMonth : String) : MonthlySummary :=
  let m := txs.filter (fun tx => toMonthStr tx.date == selMonth)
  let income := sumAmountsEur (m.filter (fun tx => tx.ty == "Income"))
  let expense := sumAmountsEur (m.filter (fun tx => tx.ty == "Expense"))
  let debtAdd := sumAmountsEur (m.filter (fun tx => tx.ty == "Debt"))
  let debtPay := sumAmountsEur (m.filter (fun tx => tx.ty == "Debt Payment"))
  { income := income
    expense := expense
    debtAdd := debtAdd
    debtPay := debtPay
    net := income - expense
    debtNet := debtAdd - debtPay }

/-- C6: the monthly summary sums `amount_eur` per type over the selected
    month, with `net = income − expense` and
    `debt-net = debt-added − debt-paid`; the month `[Income 100, Expense
    40]` yields `net = 60`. -/
theorem monthlySummary_correct (txs : List Tx) (selMonth : String) :
    (monthlySummary txs selMonth).income = sumAmountsEur
        (txs.filter (fun tx => toMonthStr tx.date == selMonth &&
          tx.ty == "Income")) ∧
    (monthlySummary txs selMonth).expense = sumAmountsEur
        (txs.filter (fun tx => toMonthStr tx.date == selMonth &&
          tx.ty == "Expense")) ∧
    (monthlySummary txs selMonth).debtAdd = sumAmountsEur
        (txs.filter (fun tx => toMonthStr tx.date == selMonth &&
          tx.ty == "Debt")) ∧
    (monthlySummary txs selMonth).debtPay = sumAmountsEur
        (txs.filter (fun tx => toMonthStr tx.date == selMonth &&
          tx.ty == "Debt Payment")) ∧
    (monthlySummary txs selMonth).net =
      (monthlySummary txs selMonth).income -
        (monthlySummary txs selMonth).expense ∧
    (monthlySummary txs selMonth).debtNet =
      (monthlySummary txs selMonth).debtAdd -
        (monthlySummary txs selMonth).debtPay ∧
    (monthlySummary
      [{ date := some ⟨2026, 2, 7⟩, ty := "Income", category := "Salary",
         amount_eur := 100, amount_bdt := 13000 },
       { date := some ⟨2026, 2, 10⟩, ty := "Expense", category := "Food",
         amount_eur := 40, amount_bdt := 5200 }] "2026-02").net = 60 := by
  refine ⟨?_, ?_, ?_, ?_, rfl, rfl, ?_⟩
  · simp [monthlySummary, List.filter_filter, Bool.and_comm]
  · simp [monthlySummary, List.filter_filter, Bool.and_comm]
  · simp [monthlySummary, List.filter_filter, Bool.and_comm]
  · simp [monthlySummary, List.filter_filter, Bool.and_comm]
  · show sumAmountsEur
        [{ date := some ⟨2026, 2, 7⟩, ty := "Income", category := "Salary",
           amount_eur := 100, amount_bdt := 13000 }] -
      sumAmountsEur
        [{ date := some ⟨2026, 2, 10⟩, ty := "Expense", category := "Food",
           amount_eur := 40, amount_bdt := 5200 }] = 60
    simp [sumAmountsEur]
    norm_num

/-- The TOP STATUS block of src/pages/1_Entry.py:65-82 (EUR columns): on an
    empty frame all figures are 0.0, otherwise sums by type; `debt` is
    debt-added minus debt-paid. -/
structure EntryStatus where
  income : Rat
  expense : Rat
  debt : Rat
deriving Repr, DecidableEq

/-- `income_eur`, `expense_eur`, `debt_eur` of src/pages/1_Entry.py:65-79. -/
def entryTopStatus (txs : List Tx) : EntryStatus :=
  if txs.isEmpty then { income := 0, expense := 0, debt := 0 }
  else
    { income := sumAmountsEur (txs.filter (fun tx => tx.ty == "Income"))
      expense := sumAmountsEur (txs.filter (fun tx => tx.ty == "Expense"))
      debt := sumAmountsEur (txs.filter (fun tx => tx.ty == "Debt")) -
        sumAmountsEur (txs.filter (fun tx => tx.ty == "Debt Payment")) }

/-- `savings_eur = income_eur - expense_eur` (src/pages/1_Entry.py:81). -/
def savings (st : EntryStatus) : Rat := st.income - st.expense

/-- One cell of the month-by-type `pivot_table(... aggfunc="sum",
    fill_value=0.0)` of src/pages/3_Insights_and_Categories.py:86-98, for a
    chosen value column `val` (`amount_eur` or `amount_bdt`): the sum of
    `val` over the rows of that month and type, 0 when the group is
    absent.  The page additionally forces `Income`/`Expense` columns to
    exist, filled with 0.0. -/
def pivotValue (val : Tx → Rat) (txs : List Tx) (month ty : String) : Rat :=
  ((txs.filter (fun tx =>
    toMonthStr tx.date == month && tx.ty == ty)).map val).sum

/-- C7: aggregations treat absent groups as zero: the Entry-page top
    status of an empty transaction set is all zeros (savings included),
    and any month/type pivot group with no matching transactions has value
    0.0. -/
theorem aggregations_absent_zero :
    (entryTopStatus [] = { income := 0, expense := 0, debt := 0 } ∧
      savings (entryTopStatus []) = 0) ∧
    ∀ (val : Tx → Rat) (txs : List Tx) (month ty : String),
      (∀ tx ∈ txs, ¬(toMonthStr tx.date = month ∧ tx.ty = ty)) →
      pivotValue val txs month ty = 0 := by
  constructor
  · refine ⟨rfl, ?_⟩
    simp [savings, entryTopStatus]
  · intro val txs month ty h
    have hnil : txs.filter (fun tx =>
        toMonthStr tx.date == month && tx.ty == ty) = [] := by
      rw [List.filter_eq_nil_iff]
      intro tx htx
      have := h tx htx
      simp only [Bool.and_eq_true, beq_iff_eq]
      tauto
    simp [pivotValue, hnil]

/-- Witness for C7: a February income row contributes nothing to the
    February/Expense pivot cell, which is 0. -/
theorem aggregations_absent_zero_witness :
    pivotValue Tx.amount_eur
      [{ date := some ⟨2026, 2, 7⟩, ty := "Income", category := "Salary",
         amount_eur := 100, amount_bdt := 13000 }] "2026-02" "Expense" = 0 :=
  aggregations_absent_zero.2 Tx.amount_eur
    [{ date := some ⟨2026, 2, 7⟩, ty := "Income", category := "Salary",
       amount_eur := 100, amount_bdt := 13000 }] "2026-02" "Expense"
    (by decide)

/-- The expense-by-category breakdown of
    src/pages/3_Insights_and_Categories.py:116-122: filter the selected
    month's expenses, group by category summing the value column, and sort
    descending by the summed value (`sort_values(ascending=False)`,
    realised here by an insertion sort with the descending order). -/
def expenseByCategory (val : Tx → Rat) (txs : List Tx) (selMonth : String) :
    List (String × Rat) :=
  let mExp := txs.filter (fun tx =>
    toMonthStr tx.date == selMonth && tx.ty == "Expense")
  let cats := (mExp.map Tx.category).dedup
  List.insertionSort (fun a b => b.2 ≤ a.2)
    (cats.map (fun c =>
      (c, ((mExp.filter (fun tx => tx.category == c)).map val).sum)))

/-- C9: each entry of the category breakdown is the sum of the value
    column over the selected month's Expense rows of that category, every
    category occurring among those rows appears, and the breakdown is
    sorted descending by summed value. -/
theorem expenseByCategory_correct (val : Tx → Rat) (txs : List Tx)
    (selMonth : String) :
    (∀ p ∈ expenseByCategory val txs selMonth,
      p.2 = ((txs.filter (fun tx => (toMonthStr tx.date == selMonth &&
        tx.ty == "Expense") && tx.category == p.1)).map val).sum) ∧
    (∀ tx ∈ txs, toMonthStr tx.date = selMonth → tx.ty = "Expense" →
      tx.category ∈ (expenseByCategory val txs selMonth).map Prod.fst) ∧
    (expenseByCategory val txs selMonth).Sorted (fun a b => b.2 ≤ a.2) := by
  refine ⟨?_, ?_, ?_⟩
  · intro p hp
    unfold expenseByCategory at hp
    rw [List.mem_insertionSort] at hp
    obtain ⟨c, hc, hpc⟩ := List.mem_map.mp hp
    subst hpc
    rw [List.filter_filter]
    simp only [Bool.and_comm]
  · intro tx htx hmonth hty
    unfold expenseByCategory
    have hmem : tx ∈ txs.filter (fun tx =>
        toMonthStr tx.date == selMonth && tx.ty == "Expense") := by
      rw [List.mem_filter]
      exact ⟨htx, by simp [hmonth, hty]⟩
    have hcat : tx.category ∈ (txs.filter (fun tx =>
        toMonthStr tx.date == selMonth && tx.ty == "Expense")).map
          Tx.category :=
      List.mem_map_of_mem Tx.category hmem
    have hdedup : tx.category ∈ ((txs.filter (fun tx =>
        toMonthStr tx.date == selMonth && tx.ty == "Expense")).map
          Tx.category).dedup := List.mem_dedup.mpr hcat
    rw [List.mem_map]
    refine ⟨(tx.category, (((txs.filter (fun tx =>
      toMonthStr tx.date == selMonth && tx.ty == "Expense")).filter
        (fun t => t.category == tx.category)).map val).sum), ?_, rfl⟩
    rw [List.mem_insertionSort]
    exact List.mem_map_of_mem _ hdedup
  · haveI : IsTotal (String × Rat) (fun a b => b.2 ≤ a.2) :=
      ⟨fun a b => (le_total b.2 a.2)⟩
    haveI : IsTrans (String × Rat) (fun a b => b.2 ≤ a.2) :=
      ⟨fun _ _ _ h1 h2 => le_trans h2 h1⟩
    exact List.sorted_insertionSort _ _

/-- Witness for C9: a February expense of category Food appears among the
    keys of February's category breakdown. -/
theorem expenseByCategory_correct_witness :
    ("Food" : String) ∈ (expenseByCategory Tx.amount_eur
      [{ date := some ⟨2026, 2, 10⟩, ty := "Expense", category := "Food",
         amount_eur := 40, amount_bdt := 5200 }] "2026-02").map Prod.fst :=
  (expenseByCategory_correct Tx.amount_eur
    [{ date := some ⟨2026, 2, 10⟩, ty := "Expense", category := "Food",
       amount_eur := 40, amount_bdt := 5200 }] "2026-02").2.1
    { date := some ⟨2026, 2, 10⟩, ty := "Expense", category := "Food",
      amount_eur := 40, amount_bdt := 5200 } (by decide) (by decide) rfl

/-
## Spreadsheet access layer: `ensure_headers` (src/utils.py:86-99)

A worksheet is modelled as its list of rows (lists of cell strings).
`ensure_headers` reads row 1 — through the TTL header cache, falling back
to a direct read on error; in a single process every write invalidates the
cache, so the read is the current header row.  On mismatch it runs
`worksheet.clear()` (removing every row), appends the header row, and
calls `invalidate_all_data_caches()`; the returned flag records whether
the caches were invalidated.
-/

/-- `TX_HEADERS` (src/utils.py:20-23). -/
def TX_HEADERS : List String :=
  ["id", "date", "type", "category", "remarks",
   "amount_eur", "rate_eur_bdt", "amount_bdt", "created_at"]

/-- `CAT_HEADERS` (src/utils.py:24). -/
def CAT_HEADERS : List String := ["category_name", "type"]

/-- `RATE_HEADERS` (src/utils.py:25). -/
def RATE_HEADERS : List String := ["date", "eur_bdt_rate"]

/-- `row_values(1)`: the first row, `[]` for an empty sheet. -/
def rowValues1 (wsRows : List (List String)) : List String := wsRows.headD []

/-- `ensure_headers` (src/utils.py:86-99): returns the worksheet rows after
    the call and whether the caches were invalidated. -/
def ensure_headers (wsRows : List (List String)) (headers : List String) :
    List (List String) × Bool :=
  let existing := rowValues1 wsRows
  if existing = headers then (wsRows, false)
  else ([headers], true)

/-- C8: `ensure_headers` leaves the worksheet unchanged (and does not
    invalidate caches) when row 1 already equals the expected headers;
    on a mismatch it clears the sheet, writes the headers as the only row,
    and invalidates the read caches. -/
theorem ensure_headers_frame (wsRows : List (List String))
    (headers : List String) :
    (rowValues1 wsRows = headers →
      ensure_headers wsRows headers = (wsRows, false)) ∧
    (rowValues1 wsRows ≠ headers →
      ensure_headers wsRows headers = ([headers], true)) := by
  constructor
  · intro h
    simp [ensure_headers, h]
  · intro h
    simp [ensure_headers, h]

/-- Witness for C8: a Rates sheet whose header row matches `RATE_HEADERS`
    is left untouched. -/
theorem ensure_headers_frame_witness :
    rowValues1 [["date", "eur_bdt_rate"], ["2026-02-07", "120.0"]] =
      RATE_HEADERS ∧
    ensure_headers [["date", "eur_bdt_rate"], ["2026-02-07", "120.0"]]
      RATE_HEADERS =
      ([["date", "eur_bdt_rate"], ["2026-02-07", "120.0"]], false) :=
  ⟨by decide,
   (ensure_headers_frame [["date", "eur_bdt_rate"], ["2026-02-07", "120.0"]]
     RATE_HEADERS).1 (by decide)⟩

/-
## `normalize_transactions_df` (src/utils.py:269-291)

A dataframe is a list of named columns of cells; cells are strings (as
`get_all_values` delivers), numbers, or datetimes (`none` = NaT).
`pd.to_datetime(errors="coerce")` is modelled by an ISO `YYYY-MM-DD`
parser (the claims need only: a parse failure yields null, never an
error); `pd.to_numeric(errors="coerce").fillna(0.0)` by a decimal parser
defaulting to 0.  Columns are keyed by name; the sheets' headers are
unique, and duplicate-named columns are not modelled.
-/

/-- A dataframe cell. -/
inductive Cell where
  | str (s : String)
  | num (q : Rat)
  | dateVal (d : Option PyDate)
deriving Repr, DecidableEq

/-- Digit-string accumulator for the parsing models. -/
def digitsToNatAux : List Char → Nat → Option Nat
  | [], acc => some acc
  | c :: rest, acc =>
    if c.isDigit then digitsToNatAux rest (acc * 10 + (c.toNat - '0'.toNat))
    else none

/-- Parse a nonempty all-digit character list. -/
def digitsToNat? (cs : List Char) : Option Nat :=
  match cs with
  | [] => none
  | _ => digitsToNatAux cs 0

/-- Split a character list on a separator. -/
def splitOnChar (sep : Char) : List Char → List (List Char)
  | [] => [[]]
  | c :: rest =>
    match splitOnChar sep rest with
    | [] => [[c]]
    | g :: gs => if c = sep then [] :: g :: gs else (c :: g) :: gs

/-- ISO-subset model of `pd.to_datetime(·, errors="coerce")` on one cell:
    `YYYY-MM-DD` parses, everything else coerces to NaT (`none`). -/
def tryParseDate (c : Cell) : Option PyDate :=
  match c with
  | .dateVal d => d
  | .num _ => none
  | .str s =>
    match splitOnChar '-' s.data with
    | [ys, ms, ds] =>
      match digitsToNat? ys, digitsToNat? ms, digitsToNat? ds with
      | some y, some m, some d =>
        if 1 ≤ m ∧ m ≤ 12 ∧ 1 ≤ d ∧ d ≤ 31 then some ⟨y, m, d⟩ else none
      | _, _, _ => none
    | _ => none

/-- Decimal model of `pd.to_numeric(·, errors="coerce")` on one string:
    optional sign, digits, optional fraction; failures yield `none`. -/
def parseRat? (s : String) : Option Rat :=
  let core := fun (cs : List Char) =>
    match splitOnChar '.' cs with
    | [w] => (digitsToNat? w).map (fun n => (n : Rat))
    | [w, f] =>
      match digitsToNat? w, digitsToNat? f with
      | some wn, some fn =>
        some ((wn : Rat) + (fn : Rat) / ((10 : Rat) ^ f.length))
      | _, _ => none
    | _ => none
  match s.data with
  | '-' :: rest => (core rest).map Neg.neg
  | cs => core cs

/-- `pd.to_numeric(·, errors="coerce").fillna(0.0)` on one cell. -/
def toNumericFill (c : Cell) : Rat :=
  match c with
  | .num q => q
  | .dateVal _ => 0
  | .str s => (parseRat? s).getD 0

/-- `.astype(str)` on one cell. -/
def astypeStr (c : Cell) : String :=
  match c with
  | .str s => s
  | .num q => toString q.num ++ "/" ++ toString q.den
  | .dateVal none => "NaT"
  | .dateVal (some d) => d.isoformat

/-- A dataframe: named columns of cells. -/
structure Df where
  cols : List (String × List Cell)
deriving Repr, DecidableEq

/-- Row count: length of the first column (0 with no columns). -/
def Df.nrows (df : Df) : Nat :=
  ((df.cols.head?).map (fun p => p.2.length)).getD 0

/-- `df.empty`: true when either axis has length 0. -/
def Df.isEmptyDf (df : Df) : Bool := df.cols.isEmpty || df.nrows == 0

/-- `col in df.columns`. -/
def Df.hasCol (df : Df) (c : String) : Bool := df.cols.any (fun p => p.1 == c)

/-- `df[c] = df[c].map f`: transform every column named `c` cellwise. -/
def Df.mapCol (df : Df) (c : String) (f : Cell → Cell) : Df :=
  ⟨df.cols.map (fun p => if p.1 == c then (p.1, p.2.map f) else p)⟩

/-- `df[c] = scalar`: append a new column broadcasting the scalar. -/
def Df.addCol (df : Df) (c : String) (v : Cell) : Df :=
  ⟨df.cols ++ [(c, List.replicate df.nrows v)]⟩

/-- `required_cols` (src/utils.py:275-278). -/
def requiredCols : List String :=
  ["id", "date", "type", "category", "remarks",
   "amount_eur", "rate_eur_bdt", "amount_bdt", "created_at"]

/-- The three amount columns of src/utils.py:285. -/
def amountCols : List String := ["amount_eur", "rate_eur_bdt", "amount_bdt"]

/-- The identifier/text columns of src/utils.py:288. -/
def textCols : List String := ["id", "type", "category", "remarks", "created_at"]

/-- The ensure-missing-columns step of src/utils.py:279-281. -/
def ensureStep (d : Df) (c : String) : Df :=
  if d.hasCol c then d else d.addCol c (.str "")

/-- `normalize_transactions_df` (src/utils.py:269-291): empty frames are
    returned unchanged; otherwise missing required columns are added with
    the empty-string default, the date column is datetime-coerced, the
    amount columns numeric-coerced with 0.0 fill, and the text columns
    stringified.  Total: never raises. -/
def normalize_transactions_df (df : Df) : Df :=
  if df.isEmptyDf then df
  else
    let df1 := requiredCols.foldl ensureStep df
    let df2 := df1.mapCol "date" (fun c => .dateVal (tryParseDate c))
    let df3 := amountCols.foldl
      (fun d c => d.mapCol c (fun cell => .num (toNumericFill cell))) df2
    textCols.foldl
      (fun d c => d.mapCol c (fun cell => .str (astypeStr cell))) df3

/-- A cellwise predicate holding on every column of a given name. -/
def ColPred (df : Df) (name : String) (P : Cell → Prop) : Prop :=
  ∀ p ∈ df.cols, p.1 = name → ∀ cell ∈ p.2, P cell

/-- `mapCol` does not change which columns exist. -/
theorem hasCol_mapCol (df : Df) (c : String) (f : Cell → Cell) (c' : String) :
    (df.mapCol c f).hasCol c' = df.hasCol c' := by
  simp only [Df.mapCol, Df.hasCol, List.any_map]
  congr 1
  funext q
  by_cases h : q.1 == c <;> simp [h, Function.comp]

/-- Folding `mapCol` over a name list does not change which columns
    exist. -/
theorem hasCol_mapFold (names : List String) (f : Cell → Cell) (df : Df)
    (c' : String) :
    (names.foldl (fun d c => d.mapCol c f) df).hasCol c' = df.hasCol c' := by
  induction names generalizing df with
  | nil => rfl
  | cons c cs ih => rw [List.foldl_cons, ih, hasCol_mapCol]

/-- `ensureStep` keeps existing columns. -/
theorem hasCol_ensureStep_mono {df : Df} {c' : String}
    (h : df.hasCol c' = true) (c : String) :
    (ensureStep df c).hasCol c' = true := by
  unfold ensureStep
  split
  · exact h
  · simp only [Df.addCol, Df.hasCol, List.any_append] at *
    simp [h]

/-- `ensureStep` establishes its own column. -/
theorem hasCol_ensureStep_self (df : Df) (c : String) :
    (ensureStep df c).hasCol c = true := by
  unfold ensureStep
  split
  · assumption
  · simp [Df.addCol, Df.hasCol, List.any_append]

/-- The ensure fold keeps existing columns. -/
theorem hasCol_ensureFold_mono (cs : List String) {df : Df} {c' : String}
    (h : df.hasCol c' = true) :
    (cs.foldl ensureStep df).hasCol c' = true := by
  induction cs generalizing df with
  | nil => exact h
  | cons c rest ih => exact ih (hasCol_ensureStep_mono h c)

/-- After the ensure fold every listed column exists. -/
theorem hasCol_ensureFold_mem {cs : List String} {c' : String}
    (hmem : c' ∈ cs) (df : Df) :
    (cs.foldl ensureStep df).hasCol c' = true := by
  induction cs generalizing df with
  | nil => cases hmem
  | cons c rest ih =>
    rcases List.mem_cons.mp hmem with h | h
    · subst h
      exact hasCol_ensureFold_mono rest (hasCol_ensureStep_self df c')
    · exact ih h _

/-- `mapCol c f` makes `P` hold on every column named `c` when `P` holds
    of every `f`-image. -/
theorem colPred_mapCol_self {P : Cell → Prop} {f : Cell → Cell}
    (hf : ∀ cell, P (f cell)) (df : Df) (c : String) :
    ColPred (df.mapCol c f) c P := by
  intro p hp hname cell hcell
  obtain ⟨q, hq, hpq⟩ := List.mem_map.mp hp
  by_cases h : q.1 == c
  · rw [if_pos h] at hpq
    subst hpq
    obtain ⟨cell0, -, hc0⟩ := List.mem_map.mp hcell
    subst hc0
    exact hf cell0
  · rw [if_neg h] at hpq
    subst hpq
    exact absurd (by simp [hname]) h

/-- `mapCol` on a different name preserves a column predicate. -/
theorem colPred_mapCol_other {P : Cell → Prop} {f : Cell → Cell}
    {df : Df} {name : String} (h : ColPred df name P) {c : String}
    (hne : name ≠ c) :
    ColPred (df.mapCol c f) name P := by
  intro p hp hname cell hcell
  obtain ⟨q, hq, hpq⟩ := List.mem_map.mp hp
  by_cases hqc : q.1 == c
  · rw [if_pos hqc] at hpq
    subst hpq
    exact absurd (hname ▸ (by simpa using hqc)) hne
  · rw [if_neg hqc] at hpq
    subst hpq
    exact h q hq hname cell hcell

/-- A fold of `mapCol` over names avoiding `name` preserves a column
    predicate. -/
theorem colPred_mapFold_notMem {P : Cell → Prop} {f : Cell → Cell}
    {name : String} {names : List String} (hnot : name ∉ names) {df : Df}
    (h : ColPred df name P) :
    ColPred (names.foldl (fun d c => d.mapCol c f) df) name P := by
  induction names generalizing df with
  | nil => exact h
  | cons c cs ih =>
    rw [List.foldl_cons]
    exact ih (fun hmem => hnot (List.mem_cons_of_mem c hmem))
      (colPred_mapCol_other h (fun he => hnot (he ▸ List.mem_cons_self c cs)))

/-- After a fold of `mapCol f` over duplicate-free names, `P` holds on
    every column named by a member, when `P` holds of every `f`-image. -/
theorem colPred_mapFold_mem {P : Cell → Prop} {f : Cell → Cell}
    (hf : ∀ cell, P (f cell)) {name : String} {names : List String}
    (hmem : name ∈ names) (hnd : names.Nodup) (df : Df) :
    ColPred (names.foldl (fun d c => d.mapCol c f) df) name P := by
  induction names generalizing df with
  | nil => cases hmem
  | cons c cs ih =>
    rw [List.foldl_cons]
    rcases List.mem_cons.mp hmem with h | h
    · subst h
      exact colPred_mapFold_notMem (List.Nodup.not_mem hnd)
        (colPred_mapCol_self hf df name)
    · exact ih h (List.Nodup.of_cons hnd) _

/-- C5 counterexample: the claim quantifies over every raw input table,
    but an empty table (a `foo` column with no rows) is returned unchanged
    by `normalize_transactions_df` (src/utils.py:270-271), so the required
    column `id` is absent from the output. -/
theorem normalize_empty_input_missing_cols :
    (normalize_transactions_df ⟨[("foo", [])]⟩).hasCol "id" = false := by
  decide

/-- C5 (amended to non-empty input tables): for every raw table with at
    least one row and one column, normalization returns — it is total,
    never raising — a frame with all nine required columns (missing ones
    added with the empty-string default), every date-column cell a
    datetime-or-null, every amount-column cell a number, every text-column
    cell a string; concretely, an unparseable date becomes null, an
    unparseable amount becomes 0.0, and absent columns are filled with
    their defaults. -/
theorem normalize_transactions_df_shape (df : Df)
    (h : df.isEmptyDf = false) :
    (∀ c ∈ requiredCols, (normalize_transactions_df df).hasCol c = true) ∧
    ColPred (normalize_transactions_df df) "date"
      (fun cell => ∃ o : Option PyDate, cell = .dateVal o) ∧
    (∀ a ∈ amountCols, ColPred (normalize_transactions_df df) a
      (fun cell => ∃ q : Rat, cell = .num q)) ∧
    (∀ t ∈ textCols, ColPred (normalize_transactions_df df) t
      (fun cell => ∃ s : String, cell = .str s)) ∧
    normalize_transactions_df
      ⟨[("date", [.str "2026-02-07", .str "notadate"]),
        ("amount_eur", [.str "7", .str "abc"])]⟩ =
      ⟨[("date", [.dateVal (some ⟨2026, 2, 7⟩), .dateVal none]),
        ("amount_eur", [.num 7, .num 0]),
        ("id", [.str "", .str ""]),
        ("type", [.str "", .str ""]),
        ("category", [.str "", .str ""]),
        ("remarks", [.str "", .str ""]),
        ("rate_eur_bdt", [.num 0, .num 0]),
        ("amount_bdt", [.num 0, .num 0]),
        ("created_at", [.str "", .str ""])]⟩ := by
  have hne : ¬(df.isEmptyDf = true) := by simp [h]
  refine ⟨?_, ?_, ?_, ?_, by decide⟩
  · intro c hc
    unfold normalize_transactions_df
    rw [if_neg hne]
    dsimp only
    rw [hasCol_mapFold, hasCol_mapFold, hasCol_mapCol]
    exact hasCol_ensureFold_mem hc df
  · unfold normalize_transactions_df
    rw [if_neg hne]
    dsimp only
    refine colPred_mapFold_notMem (by decide) ?_
    refine colPred_mapFold_notMem (by decide) ?_
    exact colPred_mapCol_self (fun cell => ⟨tryParseDate cell, rfl⟩) _ _
  · intro a ha
    unfold normalize_transactions_df
    rw [if_neg hne]
    dsimp only
    refine colPred_mapFold_notMem ?_ ?_
    · fin_cases ha <;> decide
    · exact colPred_mapFold_mem (fun cell => ⟨toNumericFill cell, rfl⟩) ha
        (by decide) _
  · intro t ht
    unfold normalize_transactions_df
    rw [if_neg hne]
    dsimp only
    exact colPred_mapFold_mem (fun cell => ⟨astypeStr cell, rfl⟩) ht
      (by decide) _

/-- Witness for C5 (amended): a one-row table holding only a date column
    is non-empty, and its normalization contains the `amount_bdt`
    column. -/
theorem normalize_transactions_df_shape_witness :
    (⟨[("date", [Cell.str "2026-02-07"])]⟩ : Df).isEmptyDf = false ∧
    (normalize_transactions_df
      ⟨[("date", [Cell.str "2026-02-07"])]⟩).hasCol "amount_bdt" = true :=
  ⟨by decide,
   (normalize_transactions_df_shape ⟨[("date", [Cell.str "2026-02-07"])]⟩
     (by decide)).1 "amount_bdt" (by decide)⟩

/-- C10: a table with no rows is empty in the pandas sense, so
    `normalize_transactions_df` returns it unchanged — no columns added,
    no coercion applied. -/
theorem normalize_transactions_df_empty (df : Df) (h : df.nrows = 0) :
    normalize_transactions_df df = df := by
  unfold normalize_transactions_df
  rw [if_pos]
  simp [Df.isEmptyDf, h]

/-- Witness for C10: a rowless single-column table comes back unchanged
    (in particular without the required columns). -/
theorem normalize_transactions_df_empty_witness :
    (⟨[("foo", [])]⟩ : Df).nrows = 0 ∧
    normalize_transactions_df ⟨[("foo", [])]⟩ = ⟨[("foo", [])]⟩ :=
  ⟨rfl, normalize_transactions_df_empty ⟨[("foo", [])]⟩ rfl⟩

end FinanceApp
